import Mathlib

/-!
Verification of the http.upload handler (path translation, proto-file
lifecycle, quota selection and authentication) against a shallow
embedding of its Go source.

Paths and header values are modelled as `List Char` (the ASCII fragment
suffices for every property below); file contents as `List Nat` (bytes).
-/

namespace HttpUpload

/-! ## Go `path/filepath` fragment (Unix rules)

`goClean` mirrors `filepath.Clean`: split on `/`, drop empty and `.`
elements, let `..` pop the previous element (at the root, a leading `..`
is dropped; in a relative path it is kept). -/

/-- Split a character list on `/` (the separators are dropped). -/
def splitSlash : List Char → List (List Char)
  | [] => [[]]
  | c :: rest =>
    let r := splitSlash rest
    if c = '/' then [] :: r
    else match r with
      | [] => [[c]]
      | s :: ss => (c :: s) :: ss

/-- One step of `filepath.Clean`'s element processing on an
accumulator of already-emitted elements (in reverse order). -/
def cleanStep (rooted : Bool) (acc : List (List Char)) (s : List Char) : List (List Char) :=
  if s = [] ∨ s = ['.'] then acc
  else if s = ['.', '.'] then
    match acc with
    | [] => if rooted then [] else [['.', '.']]
    | t :: ts => if t = ['.', '.'] then ['.', '.'] :: t :: ts else ts
  else s :: acc

/-- `filepath.Clean` for Unix paths, on character lists. -/
def goClean (p : List Char) : List Char :=
  if p = [] then ['.']
  else
    let rooted := p.head? = some '/'
    let segs := (splitSlash p).foldl (cleanStep rooted) []
    let body := (segs.reverse.map (· ++ ['/'])).flatten.dropLast
    if rooted then '/' :: body
    else if body = [] then ['.'] else body

/-- `strings.HasPrefix`. -/
def goStartsWith (s pre : List Char) : Bool :=
  pre.isPrefixOf s

/-- `strings.TrimPrefix`. -/
def goTrimPre (s pre : List Char) : List Char :=
  if pre.isPrefixOf s then s.drop pre.length else s

/-- `filepath.Join` of two elements: join the non-empty ones with `/`,
then `Clean` (empty input yields the empty string). -/
def goJoin2 (a b : List Char) : List Char :=
  if a = [] ∧ b = [] then []
  else if a = [] then goClean b
  else if b = [] then goClean a
  else goClean (a ++ '/' :: b)

/-- `filepath.Base`: the last element of the path; `/` for the root,
`.` for the empty string. -/
def goBase (p : List Char) : List Char :=
  if p = [] then ['.']
  else
    let q := (p.reverse.dropWhile (· = '/')).reverse
    if q = [] then ['/']
    else (q.reverse.takeWhile (· ≠ '/')).reverse

/-- `filepath.Dir`: everything before the last element, `Clean`ed. -/
def goDir (p : List Char) : List Char :=
  let q := (p.reverse.dropWhile (· ≠ '/')).reverse
  goClean q

/-! ## Filename screening (`filename.go`)

`InAlphabet` is embedded on the ASCII fragment: for code points below
0x80 Go's `unicode.IsPrint` is exactly 0x20–0x7E, the always-rejected
runes are all ASCII, and the excluded ranges (U+2028–U+202F,
U+FFF0–U+FFFF) and the spatium U+2009 lie above it.  Every theorem below
exercises `InAlphabet` on ASCII input only. -/

/-- The characters of `AlwaysRejectedRunes`. -/
def alwaysRejectedRunes : List Char := ['"', '*', ':', '<', '>', '?', '|', '\\']

/-- `unicode.IsPrint` on the ASCII range. -/
def isPrintASCII (c : Char) : Bool :=
  0x20 ≤ c.toNat ∧ c.toNat ≤ 0x7e

/-- Runes of the source's `excludedRunes` table. -/
def isExcludedRune (c : Char) : Bool :=
  (0x2028 ≤ c.toNat ∧ c.toNat ≤ 0x202f) ∨ (0xfff0 ≤ c.toNat ∧ c.toNat ≤ 0xffff)

/-- `InAlphabet` (`filename.go`): optional normal-form check, optional
alphabet restriction, then the unconditional screen against rejected,
excluded and non-printable runes (spatium exempt). -/
def InAlphabet (s : List Char) (alphabet : Option (Char → Bool))
    (enforceForm : Option (List Char → Bool)) : Bool :=
  match enforceForm with
  | some isNormal => if ¬ isNormal s then false else InAlphabetRest s alphabet
  | none => InAlphabetRest s alphabet
where
  InAlphabetRest (s : List Char) (alphabet : Option (Char → Bool)) : Bool :=
    (match alphabet with
     | some inRanges => s.all inRanges
     | none => true)
    && s.all fun r =>
      ¬ (r.toNat ≤ 0xff ∧ r ∈ alwaysRejectedRunes)
      && (r.toNat = 0x2009 || (¬ isExcludedRune r && isPrintASCII r))

/-- Decidable equality for `Except`, needed to evaluate the embedded
fallible functions on concrete inputs. -/
instance exceptDecEq {ε α : Type} [DecidableEq ε] [DecidableEq α] :
    DecidableEq (Except ε α) := fun x y =>
  match x, y with
  | .ok a, .ok b =>
    if h : a = b then .isTrue (by rw [h])
    else .isFalse (by intro hc; apply h; injection hc)
  | .error a, .error b =>
    if h : a = b then .isTrue (by rw [h])
    else .isFalse (by intro hc; apply h; injection hc)
  | .ok _, .error _ => .isFalse (by intro hc; exact Except.noConfusion hc)
  | .error _, .ok _ => .isFalse (by intro hc; exact Except.noConfusion hc)

/-! ## Handler configuration and path translation (`upload.go`) -/

/-- Error kinds surfaced by the embedded functions. -/
inductive GoErr where
  | permission        -- os.ErrPermission
  | invalidFileName   -- errInvalidFileName
  | fileTooLarge      -- errFileTooLarge
  | transactionTooLarge
  | existsDir         -- linkat EEXIST with a directory at the final name
  | fileNameConflict  -- errFileNameConflict
  | syncFailed
  | renameFailed
  | closeFailed
  | truncateFailed
  | readFailed
  deriving DecidableEq, Repr

/-- The per-scope configuration fields the claims exercise
(`ScopeConfiguration` / `Handler`). -/
structure Handler where
  Scope : List Char
  WriteToPath : List Char
  RestrictFilenamesTo : Option (Char → Bool) := none
  UnicodeForm : Option (List Char → Bool) := none
  MaxFilesize : Nat := 0
  MaxTransactionSize : Nat := 0
  RandomizedSuffixLength : Nat := 0

/-- `translateForFilesystem` (upload.go): strip the scope, join onto
`WriteToPath`, lexically clean, require `WriteToPath` as a *string*
prefix of the result, screen the uploader-controlled remainder, and
split into directory and filename. -/
def translateForFilesystem (h : Handler) (providedName : List Char) :
    Except GoErr (List Char × List Char) :=
  let uc := goTrimPre providedName h.Scope
  let s := goJoin2 h.WriteToPath uc
  let translated := goClean s
  if ¬ goStartsWith translated h.WriteToPath then .error .permission
  else if ¬ InAlphabet uc h.RestrictFilenamesTo h.UnicodeForm then .error .invalidFileName
  else .ok (goDir translated, goBase translated)

/-- `dir` lies under `root` as a path component descendant:
either it equals `root` or extends it at a `/` boundary. -/
def isComponentDescendant (dir root : List Char) : Bool :=
  dir = root ∨ goStartsWith dir (root ++ ['/'])

/-- A scope writing to `/var/mine`, next to a sibling directory name
`/var/mine2` that extends it without an intervening `/`. -/
def c1Handler : Handler :=
  { Scope := "/upload".toList, WriteToPath := "/var/mine".toList }

/-- A scope `/s` over `/var/up` with a transaction limit of 3 bytes,
used to evaluate the embedded pipeline at concrete inputs. -/
def c4Handler : Handler :=
  { Scope := "/s".toList, WriteToPath := "/var/up".toList, MaxTransactionSize := 3 }

/-! ## Quota selection (`serveHTTP` PUT branch and `serveMultipartUpload`) -/

/-- Which limit an over-quota error is attributed to. -/
inductive QuotaErr where
  | file  -- errFileTooLarge
  | tx    -- errTransactionTooLarge
  deriving DecidableEq, Repr

/-- The PUT quota selector (upload.go `serveHTTP`, also
`serveOneUpload` in the bucket-backed revision):
start from `MaxTransactionSize`/`errTransactionTooLarge` and switch to
`MaxFilesize`/`errFileTooLarge` when the transaction limit is absent or
the file limit is strictly smaller. -/
def putQuota (maxTransactionSize maxFilesize : Nat) : Nat × QuotaErr :=
  let writeQuota := maxTransactionSize
  if writeQuota = 0 ∨ (0 < maxFilesize ∧ maxFilesize < writeQuota)
  then (maxFilesize, .file)
  else (writeQuota, .tx)

/-- The per-part quota selector of `serveMultipartUpload`:
start from `MaxFilesize`/`errFileTooLarge`; when a transaction limit is
set, 413 outright once the transaction budget is exhausted, and switch
to the remaining budget/`errTransactionTooLarge` when the file limit is
absent or the remainder is strictly smaller.  `.error` is the immediate
413. -/
def multipartQuota (maxFilesize maxTransactionSize bytesWrittenInTransaction : Nat) :
    Except QuotaErr (Nat × QuotaErr) :=
  if 0 < maxTransactionSize then
    if maxTransactionSize ≤ bytesWrittenInTransaction then .error .tx
    else if maxFilesize = 0 ∨ maxTransactionSize - bytesWrittenInTransaction < maxFilesize
    then .ok (maxTransactionSize - bytesWrittenInTransaction, .tx)
    else .ok (maxFilesize, .file)
  else .ok (maxFilesize, .file)

/-- A configured limit as a ceiling: `0` means unlimited (`⊤`). -/
def quotaCeil (n : Nat) : WithTop Nat :=
  if n = 0 then ⊤ else (n : WithTop Nat)

/-- The remaining transaction budget as a ceiling. -/
def remainingCeil (maxTransactionSize bytesSoFar : Nat) : WithTop Nat :=
  if maxTransactionSize = 0 then ⊤
  else ((maxTransactionSize - bytesSoFar : Nat) : WithTop Nat)

/-! ## Filesystem model and the universal ProtoFile backend
(`protofile/file.go`)

A flat map from names to byte contents.  Directories are not entries in
their own right (`os.MkdirAll` is elided); renames move contents. -/

/-- The filesystem: a name is either absent or holds byte contents. -/
def FS : Type := List Char → Option (List Nat)

def fsEmpty : FS := fun _ => none

def fsGet (fs : FS) (k : List Char) : Option (List Nat) := fs k

/-- Create or overwrite an entry. -/
def fsSet (fs : FS) (k : List Char) (v : List Nat) : FS :=
  fun q => if q = k then some v else fs q

/-- `os.RemoveAll`: succeeds (and does nothing) on a missing name. -/
def fsRemoveAll (fs : FS) (k : List Char) : FS :=
  fun q => if q = k then none else fs q

/-- `os.Rename` with an existing source: the destination receives the
source's contents and the source name disappears. -/
def fsRename (fs : FS) (src dst : List Char) : FS :=
  let c := fs src
  fun q => if q = src then none else if q = dst then c else fs q

/-- The temp name `ioutil.TempFile(path, "."+filename)` yields:
`path/.filename<rand>`. -/
def tmpName (path filename tmpRand : List Char) : List Char :=
  path ++ '/' :: '.' :: (filename ++ tmpRand)

/-- The final name `path + "/" + filename` recorded by `IntentNew`. -/
def finalPath (path filename : List Char) : List Char :=
  path ++ '/' :: filename

/-- The state of a `generalizedProtoFile` (`ProtoFile` with the
`*os.File`'s name, the final name, and the `persisted` flag). -/
structure GeneralizedProtoFile where
  fileName : List Char
  finalName : List Char
  persisted : Bool
  deriving DecidableEq, Repr

/-- Side effects a `Zap` call issues, for stating its no-op-ness. -/
inductive FileOp where
  | removeAll (path : List Char)
  | close
  deriving DecidableEq, Repr

/-- Error injection points of the backing I/O (`Sync`, `Rename`,
`Close` inside `Persist`). -/
structure IOEnv where
  syncErr : Bool := false
  renameErr : Bool := false
  closeErr : Bool := false

/-- `intentNewUniversal` (protofile/file.go): create the dotted temp
file in `path` and remember `path + "/" + filename` as the final name.
`tmpRand` stands for the random part `ioutil.TempFile` appends. -/
def intentNewUniversal (path filename tmpRand : List Char) (fs : FS) :
    GeneralizedProtoFile × FS :=
  let tmp := tmpName path filename tmpRand
  ({ fileName := tmp, finalName := finalPath path filename, persisted := false },
   fsSet fs tmp [])

/-- `generalizedProtoFile.Zap`: a no-op when `persisted` is set, else
`os.RemoveAll` of the temp name followed by `Close`. -/
def Zap (p : GeneralizedProtoFile) (fs : FS) : FS × List FileOp :=
  if p.persisted then (fs, [])
  else (fsRemoveAll fs p.fileName, [.removeAll p.fileName, .close])

/-- `generalizedProtoFile.Persist`: `Sync`, `os.Rename` of the temp
name onto the final name, set `persisted`, `Close`.  The receiver is a
Go *value*; the returned `GeneralizedProtoFile` is the method's local
copy of it. -/
def Persist (p : GeneralizedProtoFile) (env : IOEnv) (fs : FS) :
    Option GoErr × GeneralizedProtoFile × FS :=
  if env.syncErr then (some .syncFailed, p, fs)
  else if env.renameErr then (some .renameFailed, p, fs)
  else
    let fs1 := fsRename fs p.fileName p.finalName
    let p1 := { p with persisted := true }
    if env.closeErr then (some .closeFailed, p1, fs1) else (none, p1, fs1)

/-- A call `w.Persist()` through the `ProtoFileBehaver` interface: the
method runs on a copy of the boxed value, so the value the caller still
holds afterwards is the unchanged `stored`. -/
def callPersist (stored : GeneralizedProtoFile) (env : IOEnv) (fs : FS) :
    Option GoErr × GeneralizedProtoFile × FS :=
  let r := Persist stored env fs
  (r.1, stored, r.2.2)

/-- `WriteFileFromReader` (upload.go, protofile-backed revision):
`IntentNew`, `defer w.Zap()`, `SizeWillBe`, the `io.CopyN` loop, then
`Persist`.  The reader is modelled as the bytes it delivers plus
whether it ends in an error instead of `io.EOF`; `sizeErr` injects a
`Truncate` failure into `SizeWillBe`.  Returns (bytesWritten, error,
filesystem after the deferred `Zap` ran). -/
def WriteFileFromReader (path filename tmpRand : List Char) (body : List Nat)
    (readFail sizeErr : Bool) (env : IOEnv) (fs : FS) :
    Nat × Option GoErr × FS :=
  let iw := intentNewUniversal path filename tmpRand fs
  let w := iw.1
  -- defer w.Zap() — applied on every return path below, with the
  -- caller's (value-typed, hence never-updated) w
  if sizeErr then (0, some .truncateFailed, (Zap w iw.2).1)
  else
    let fs2 := fsSet iw.2 w.fileName body
    if readFail then (body.length, some .readFailed, (Zap w fs2).1)
    else
      let c := callPersist w env fs2
      (body.length, c.1, (Zap c.2.1 c.2.2).1)

/-! ## The `O_TMPFILE`/`Hardlink` upload pipeline (`upload.go`,
current revision: `serveHTTP` PUT branch, `writeOneHTTPBlob`,
`writeFileFromReader`) -/

/-- Decimal value of a digit string. -/
def decValue (ds : List Char) : Nat :=
  ds.foldl (fun a c => a * 10 + (c.toNat - 48)) 0

/-- `strconv.ParseInt(s, 10, 64)`: optional sign, non-empty digits,
64-bit range; errors (including range errors) yield `none`. -/
def goParseInt64 (s : List Char) : Option Int :=
  match s with
  | [] => none
  | '+' :: ds =>
    if ds ≠ [] ∧ ds.all Char.isDigit ∧ decValue ds ≤ 2 ^ 63 - 1
    then some ((decValue ds : Int)) else none
  | '-' :: ds =>
    if ds ≠ [] ∧ ds.all Char.isDigit ∧ decValue ds ≤ 2 ^ 63
    then some (-(decValue ds : Int)) else none
  | ds =>
    if ds.all Char.isDigit ∧ decValue ds ≤ 2 ^ 63 - 1
    then some ((decValue ds : Int)) else none

/-- `filepath.Ext`: the suffix beginning at the final dot in the final
slash-separated element, empty if there is none. -/
def goExt (p : List Char) : List Char :=
  let seg := p.reverse.takeWhile (· ≠ '/')
  let upto := seg.takeWhile (· ≠ '.')
  if upto.length = seg.length then [] else '.' :: upto.reverse

/-- `strings.TrimSuffix`. -/
def goTrimSuffix (s suf : List Char) : List Char :=
  if suf.isSuffixOf s then s.take (s.length - suf.length) else s

/-- The randomized-suffix rewrite of `writeOneHTTPBlob`: when
`RandomizedSuffixLength > 0`, insert `_<rand>` before the last
extension (`<rand><ext>` when the stem is empty). -/
def randomizedName (randomizedSuffixLength : Nat) (rand fname : List Char) : List Char :=
  if 0 < randomizedSuffixLength then
    let extension := goExt fname
    let basename := goTrimSuffix fname extension
    if basename = [] then rand ++ extension
    else basename ++ '_' :: (rand ++ extension)
  else fname

/-- Failure injection for the publish step of the `O_TMPFILE` backend:
a directory sitting at the final name (`linkat` EEXIST that survives
the unlink-and-retry), and a failing final `Close`. -/
structure LinkEnv where
  dirAtFinal : Bool := false
  closeErr : Bool := false

/-- `writeFileFromReader` (current revision): an anonymous `O_TMPFILE`
handle is filled by `io.CopyN(w, r, 1+writeQuota)` (or `io.Copy` when
the quota is 0), the quota check discards the file when more than
`writeQuota` bytes arrived, and `protofile.Hardlink` publishes it under
`filepath.Join(path, filename)` — unlinking and retrying once when a
regular file already sits there, failing when a directory does.
`anticipatedSize` only drives the `Truncate` preallocation, which has
no observable effect here. -/
def writeFileFromReaderV2 (path filename : List Char) (body : List Nat)
    (_anticipatedSize : Int) (writeQuota : Nat) (env : LinkEnv) (fs : FS) :
    Nat × Option GoErr × FS :=
  let bytesWritten := if 0 < writeQuota then min (writeQuota + 1) body.length else body.length
  let written := body.take bytesWritten
  if 0 < writeQuota ∧ writeQuota < bytesWritten then
    (bytesWritten, some .fileTooLarge, fs)
  else
    let finalName := goJoin2 path filename
    if env.dirAtFinal then (bytesWritten, some .existsDir, fs)
    else if env.closeErr then (bytesWritten, some .closeFailed, fsSet fs finalName written)
    else (bytesWritten, none, fsSet fs finalName written)

/-- `writeOneHTTPBlob` (current revision): translate the URL path,
apply the randomized suffix, stream via `writeFileFromReader`, and map
the outcome to an HTTP status: 409 on name conflicts, 507 on short
writes with data already written, 500 on other errors, 202 when fewer
bytes than advertised arrived, 201 otherwise.
Returns (bytesWritten, status, error, filesystem). -/
def writeOneHTTPBlobV2 (h : Handler) (rand fileName : List Char)
    (expectBytes : Int) (writeQuota : Nat) (body : List Nat) (env : LinkEnv) (fs : FS) :
    Nat × Nat × Option GoErr × FS :=
  match translateForFilesystem h fileName with
  | .error e => (0, 422, some e, fs)
  | .ok pf =>
    let fname := randomizedName h.RandomizedSuffixLength rand pf.2
    let r := writeFileFromReaderV2 pf.1 fname body expectBytes writeQuota env fs
    match r.2.1 with
    | some e =>
      if e = .existsDir then (0, 409, some .fileNameConflict, r.2.2)
      else if 0 < r.1 ∧ (r.1 : Int) < expectBytes then (r.1, 507, some e, r.2.2)
      else (r.1, 500, some e, r.2.2)
    | none =>
      if (r.1 : Int) < expectBytes then (r.1, 202, none, r.2.2)
      else (r.1, 201, none, r.2.2)

/-- The PUT branch of `serveHTTP` (current revision): quota selection,
`Content-Length` parsing with the 400-on-invalid and 413-preflight
checks, the blob write, and the post-hoc 413 when the quota was
crossed.  Returns (status, bytesWritten as reported, filesystem); the
`Location` header shaping is elided. -/
def serveHTTPPut (h : Handler) (rand urlPath : List Char)
    (clHeader : Option (List Char)) (body : List Nat) (env : LinkEnv) (fs : FS) :
    Nat × Nat × FS :=
  if urlPath.length < 2 then (400, 0, fs)
  else
    let writeQuota := (putQuota h.MaxTransactionSize h.MaxFilesize).1
    match clHeader with
    | some s =>
      match goParseInt64 s with
      | none => (400, 0, fs)
      | some l =>
        if l < 0 then (400, 0, fs)
        else if 0 < writeQuota ∧ (writeQuota : Int) < l then (413, 0, fs)
        else
          let r := writeOneHTTPBlobV2 h rand urlPath l writeQuota body env fs
          if 0 < writeQuota ∧ writeQuota < r.1 then (413, r.1, r.2.2.2)
          else (r.2.1, r.1, r.2.2.2)
    | none =>
      let r := writeOneHTTPBlobV2 h rand urlPath 0 writeQuota body env fs
      if 0 < writeQuota ∧ writeQuota < r.1 then (413, r.1, r.2.2.2)
      else (r.2.1, r.1, r.2.2.2)

/-! ## MOVE (`moveOneFile`, current revision) -/

/-- Outcome of `os.Rename`, as far as the handler distinguishes it. -/
inductive RenameResult where
  | ok
  | dirNotEmpty   -- an error whose text ends in "directory not empty"
  | otherErr
  deriving DecidableEq, Repr

/-- `moveOneFile`: translate both endpoints (422 on failure), 409 when
the joined paths coincide, 403 when either equals the scope's target
directory, else `os.Rename` mapped to 201 / 409 (directory not empty)
/ 500. -/
def moveOneFile (h : Handler) (rename : List Char → List Char → RenameResult)
    (fromFilename toFilename : List Char) : Nat :=
  match translateForFilesystem h fromFilename with
  | .error _ => 422
  | .ok fp =>
    let moveFrom := goJoin2 fp.1 fp.2
    match translateForFilesystem h toFilename with
    | .error _ => 422
    | .ok tp =>
      let moveTo := goJoin2 tp.1 tp.2
      if moveFrom = moveTo then 409
      else if moveFrom = h.WriteToPath ∨ moveTo = h.WriteToPath then 403
      else match rename moveFrom moveTo with
        | .ok => 201
        | .dirNotEmpty => 409
        | .otherErr => 500

/-! ## The bucket-backed revision (`translateToKey`,
`writeOneHTTPBlob` over a storage bucket) -/

/-- `translateToKey` (bucket-backed revision): refuse the bare scope,
prepend a random canary (`canary15` stands for `printableSuffix(15)`),
clean, require `canary + scope` as a string prefix, strip it, and
screen the remaining key. -/
def translateToKey (h : Handler) (canary15 : List Char) (path : List Char) :
    Except GoErr (List Char) :=
  if path = h.Scope then .error .permission
  else
    let canary := '/' :: canary15
    let key := goClean (canary ++ path)
    if ¬ goStartsWith key (canary ++ h.Scope) then .error .permission
    else
      let key1 := if h.Scope = ['/'] then key.drop (canary.length + 1)
                  else key.drop (canary.length + h.Scope.length + 1)
      if ¬ InAlphabet key1 h.RestrictFilenamesTo h.UnicodeForm then .error .invalidFileName
      else .ok key1

/-- `applyRandomizedSuffix` (bucket-backed revision). -/
def applyRandomizedSuffixV5 (h : Handler) (rand key : List Char) : List Char :=
  if h.RandomizedSuffixLength = 0 then key
  else
    let extension := goExt key
    let basename := goTrimSuffix key extension
    if basename = [] ∨ basename.getLast? = some '/' then basename ++ rand ++ extension
    else basename ++ '_' :: (rand ++ extension)

/-- `writeOneHTTPBlob` (bucket-backed revision): translate to a key,
apply the randomized suffix, write the body through
`Bucket.NewWriter`/`io.Copy`; when a positive advertised size differs
from the bytes received, cancel the write — discarding the blob — and
answer 422; a conflicting `Close` answers 409; otherwise the close
persists the blob and answers 201.
Returns (bytesWritten, status, bucket). -/
def writeOneHTTPBlobV5 (h : Handler) (canary15 rand path : List Char)
    (expectBytes : Int) (body : List Nat) (closeConflict : Bool) (bucket : FS) :
    Nat × Nat × FS :=
  match translateToKey h canary15 path with
  | .error _ => (0, 422, bucket)
  | .ok key0 =>
    let key := applyRandomizedSuffixV5 h rand key0
    let bytesWritten := body.length
    if 0 < expectBytes ∧ (bytesWritten : Int) ≠ expectBytes then
      (bytesWritten, 422, bucket)
    else if closeConflict then (bytesWritten, 409, bucket)
    else (bytesWritten, 201, fsSet bucket key body)

/-! ## Signature authentication (`signature.auth`) -/

/-- uint64 subtraction with wrap-around. -/
def sub64 (a b : Nat) : Nat :=
  (a % 2 ^ 64 + (2 ^ 64 - b % 2 ^ 64)) % 2 ^ 64

/-- `abs64`: the absolute value of an int64 bit pattern, as uint64.
The source computes it branchlessly (`m := n >> 63`, arithmetic shift,
then `(n ^ m) - m` in wrapping arithmetic); for a sign bit of 0 that is
the identity, for a sign bit of 1 it is the two's-complement negation
`2^64 - n`, which is what this definition states. -/
def abs64 (n : Nat) : Nat :=
  let n1 := n % 2 ^ 64
  if n1 < 2 ^ 63 then n1 else 2 ^ 64 - n1

/-- `strconv.ParseUint(v, 10, 64)` with the error ignored, as
`CheckFormal` uses it: a digit string yields its value (range overflow
yields MaxUint64, per ParseUint's range-error result); anything else
leaves the variable at 0. -/
def goParseUint64Lenient (v : List Char) : Nat :=
  if v ≠ [] ∧ v.all Char.isDigit then min (decValue v) (2 ^ 64 - 1) else 0

/-- `http.Header.Get`: the empty string when the key is absent.  Keys
are compared verbatim; the embedding stores them in the (lower-case)
form `HeadersToSign` uses, mirroring Go's canonicalisation. -/
def headersGet (headers : List (List Char × List Char)) (k : List Char) : List Char :=
  (headers.lookup k).getD []

/-- The parsed `Authorization: Signature …` header. -/
structure AuthorizationHeader where
  KeyID : List Char
  Algorithm : List Char
  HeadersToSign : List (List Char)
  Signature : List Nat

/-- The `AuthError` taxonomy with its `SuggestedResponseCode`. -/
inductive AuthError where
  | badRequest    -- 400
  | unauthorized  -- 401
  | forbidden     -- 403 (errRequestTooOld, errMethodUnauthorized)
  deriving DecidableEq, Repr

def AuthError.suggestedResponseCode : AuthError → Nat
  | .badRequest => 400
  | .unauthorized => 401
  | .forbidden => 403

/-- `AuthorizationHeader.CheckFormal`: walk `HeadersToSign`; a missing
header is a 400; for `timestamp` (decimal Unix seconds, parse errors
ignored) or `date` (HTTP date, parse errors 400 — `parseHTTPDate`
abstracts `time.Parse`) the wrapped 64-bit distance to `timestampRecv`
must not exceed the tolerance, else `errRequestTooOld` (a 403). -/
def CheckFormal (a : AuthorizationHeader) (headers : List (List Char × List Char))
    (parseHTTPDate : List Char → Option Nat) (timestampRecv timeTolerance : Nat) :
    Option AuthError :=
  walk a.HeadersToSign
where
  walk : List (List Char) → Option AuthError
    | [] => none
    | k :: rest =>
      let v := headersGet headers k
      if v = [] then some .badRequest
      else if k = ("timestamp".toList) ∨ k = ("date".toList) then
        let tThen : Option Nat :=
          if k = ("timestamp".toList) then some (goParseUint64Lenient v)
          else parseHTTPDate v
        match tThen with
        | none => some .badRequest
        | some timestampThen =>
          if timeTolerance < abs64 (sub64 timestampRecv timestampThen)
          then some .forbidden
          else walk rest
      else walk rest

/-- `AuthorizationHeader.SatisfiedBy`: the MAC (a parameter — the
claims do not concern SHA-256's internals) over the concatenated
values of `HeadersToSign`, compared against the supplied signature. -/
def SatisfiedBy (mac : List Nat → List (List Char) → List Nat)
    (a : AuthorizationHeader) (headers : List (List Char × List Char))
    (secret : List Nat) : Bool :=
  a.Signature == mac secret (a.HeadersToSign.map (headersGet headers))

/-- Modelled from the spec: the current `signature.auth.Authenticate`
— the revision the `serveHTTP` glue calls through
`err.SuggestedResponseCode()` — is absent from `src/` (only an older
bool-`CheckFormal` Authenticate and the caller are present).  Per the
spec it runs the structural checks (400), propagates `CheckFormal`'s
`AuthError` (400 for lacking headers, 403 for a stale timestamp), then
looks up the keyId and evaluates `SatisfiedBy` even when the key is
unknown, answering 403 on unknown key or mismatch; its body below the
parse step coincides with the `Authenticate` in
`src/signature.auth/auth.go` lines 70–92. -/
def Authenticate (mac : List Nat → List (List Char) → List Nat)
    (secrets : List (List Char × List Nat)) (a : AuthorizationHeader)
    (headers : List (List Char × List Char))
    (parseHTTPDate : List Char → Option Nat) (timestampRecv timeTolerance : Nat) :
    Nat :=
  if a.Signature.length = 0 ∨ a.HeadersToSign.length < 2
     ∨ a.Algorithm ≠ ("hmac-sha256".toList) then 400
  else if ¬ ((a.HeadersToSign.head? = some ("date".toList)
              ∨ a.HeadersToSign.head? = some ("timestamp".toList))
             ∧ a.HeadersToSign.get? 1 = some ("token".toList)) then 400
  else
    match CheckFormal a headers parseHTTPDate timestampRecv timeTolerance with
    | some e => e.suggestedResponseCode
    | none =>
      let found := secrets.lookup a.KeyID
      let hmacSharedSecret := found.getD []
      -- do this anyway to obscure if the keyId exists
      let isSatisfied := SatisfiedBy mac a headers hmacSharedSecret
      if found.isNone ∨ ¬ isSatisfied then 403 else 200

/-- A parsed `Authorization: Signature` header over
`timestamp token` with a one-byte signature, for concrete runs. -/
def c6Header : AuthorizationHeader :=
  { KeyID := "k1".toList, Algorithm := "hmac-sha256".toList,
    HeadersToSign := ["timestamp".toList, "token".toList], Signature := [1] }

/-- Request headers whose `Timestamp` reads 2^64 − 1. -/
def c6Headers : List (List Char × List Char) :=
  [(("timestamp".toList), ("18446744073709551615".toList)),
   (("token".toList), ("nonce".toList))]

/-- Request headers with `Timestamp: 50`. -/
def c6FreshHeaders : List (List Char × List Char) :=
  [(("timestamp".toList), ("50".toList)), (("token".toList), ("x".toList))]

/-- A parsed `Authorization: Signature` header signing `date token`. -/
def c6DateHeader : AuthorizationHeader :=
  { KeyID := "k1".toList, Algorithm := "hmac-sha256".toList,
    HeadersToSign := ["date".toList, "token".toList], Signature := [1] }

/-- Request headers carrying a `Date` value (its parse into Unix
seconds is supplied to the embedding as a function). -/
def c6DateHeaders : List (List Char × List Char) :=
  [(("date".toList), ("Mon, 02 Jan 2006 15:04:05 GMT".toList)),
   (("token".toList), ("x".toList))]

/-! # Theorems -/

/-- Sanity check of the path model on the source's own example. -/
example : goClean ("/var/mine/../mine/my.blob".toList) = "/var/mine/my.blob".toList := by decide

example : goJoin2 ("/var/mine".toList) ("/../mine2/x".toList) = "/var/mine2/x".toList := by decide

/-- C1: the containment check of `translateForFilesystem` is
`strings.HasPrefix` on the cleaned string, not a path-component test.
For `write_to = /var/mine`, the URL path `/upload/../mine2/x` cleans to
`/var/mine2/x`, which lies outside `write_to`; the translation
nevertheless succeeds and returns the directory `/var/mine2`, which is
not a component descendant of `write_to`.  The claim requires such a
request to be rejected as `InvalidPath`. -/
theorem C1_translate_accepts_sibling_escape :
    translateForFilesystem c1Handler ("/upload/../mine2/x".toList)
        = .ok ("/var/mine2".toList, "x".toList)
    ∧ isComponentDescendant ("/var/mine2".toList) c1Handler.WriteToPath = false := by
  decide

/-- The dotted temp name and the final name never coincide (the temp
name's last component carries an extra leading dot). -/
lemma tmpName_ne_finalPath (path filename tmpRand : List Char) :
    tmpName path filename tmpRand ≠ finalPath path filename := by
  intro h
  have hlen := congrArg List.length h
  simp [tmpName, finalPath] at hlen
  omega

/-- Sanity: a clean run persists the body under the final name. -/
example :
    fsGet (WriteFileFromReader ("/r".toList) ("f".toList) ("123".toList)
      [7, 7] false false {} fsEmpty).2.2 ("/r/f".toList) = some [7, 7] := by decide

/-- C3: the `persisted` flag is assigned on a value receiver, so the
value the caller's interface holds is unchanged by a successful
`Persist`, and a subsequent `Zap` on it is *not* a no-op: it issues
`os.RemoveAll` of the temp name and a `Close`.  (The method's own local
copy did set the flag, which is where the update is lost.)  This
contradicts both the claim and the code's own comment "If it has
already been persisted … this will be a NOP". -/
theorem C3_persisted_flag_lost_zap_not_noop :
    (callPersist (intentNewUniversal ("/r".toList) ("f".toList) ("123".toList) fsEmpty).1
        {} (fsSet (intentNewUniversal ("/r".toList) ("f".toList) ("123".toList) fsEmpty).2
             (tmpName ("/r".toList) ("f".toList) ("123".toList)) [7])).1 = none
    ∧ (Persist (intentNewUniversal ("/r".toList) ("f".toList) ("123".toList) fsEmpty).1
        {} (fsSet (intentNewUniversal ("/r".toList) ("f".toList) ("123".toList) fsEmpty).2
             (tmpName ("/r".toList) ("f".toList) ("123".toList)) [7])).2.1.persisted = true
    ∧ (callPersist (intentNewUniversal ("/r".toList) ("f".toList) ("123".toList) fsEmpty).1
        {} (fsSet (intentNewUniversal ("/r".toList) ("f".toList) ("123".toList) fsEmpty).2
             (tmpName ("/r".toList) ("f".toList) ("123".toList)) [7])).2.1.persisted = false
    ∧ (Zap (callPersist (intentNewUniversal ("/r".toList) ("f".toList) ("123".toList) fsEmpty).1
        {} (fsSet (intentNewUniversal ("/r".toList) ("f".toList) ("123".toList) fsEmpty).2
             (tmpName ("/r".toList) ("f".toList) ("123".toList)) [7])).2.1
        fsEmpty).2
      = [FileOp.removeAll (tmpName ("/r".toList) ("f".toList) ("123".toList)), FileOp.close] := by
  decide

/-- C2 counterexample: sync and rename succeed but the final `Close`
inside `Persist` fails.  `WriteFileFromReader` reports an error — so no
successful `Persist` happened — yet the complete body remains under the
final name (the deferred `Zap` only removes the now-vacant temp name).
The claim demands that no entity under the final name remains after
such a failure. -/
theorem C2_close_failure_keeps_final_entity :
    (WriteFileFromReader ("/r".toList) ("f".toList) ("123".toList) [7, 7]
        false false { closeErr := true } fsEmpty).2.1 = some GoErr.closeFailed
    ∧ fsGet (WriteFileFromReader ("/r".toList) ("f".toList) ("123".toList) [7, 7]
        false false { closeErr := true } fsEmpty).2.2 ("/r/f".toList) = some [7, 7]
    ∧ fsGet (WriteFileFromReader ("/r".toList) ("f".toList) ("123".toList) [7, 7]
        false false { closeErr := true } fsEmpty).2.2 ("/r/.f123".toList) = none := by
  decide

/-- C2 (amended): after `WriteFileFromReader` returns, the temp name is
always gone and no name other than the temp and final names was
touched.  The final name gains the body exactly when sync and rename
succeeded (and the reader or `SizeWillBe` did not fail first); on every
other failure it is untouched.  The run is error-free exactly when no
injected step failed — so the only failing run that leaves the final
entity in place is the one whose sole failure is the `Close` after
`Persist`'s rename. -/
theorem C2_zap_on_error (path filename tmpRand : List Char) (body : List Nat)
    (readFail sizeErr : Bool) (env : IOEnv) (fs : FS) :
    fsGet (WriteFileFromReader path filename tmpRand body readFail sizeErr env fs).2.2
        (tmpName path filename tmpRand) = none
    ∧ (∀ q, q ≠ tmpName path filename tmpRand → q ≠ finalPath path filename →
        fsGet (WriteFileFromReader path filename tmpRand body readFail sizeErr env fs).2.2 q
          = fsGet fs q)
    ∧ fsGet (WriteFileFromReader path filename tmpRand body readFail sizeErr env fs).2.2
        (finalPath path filename)
      = (if sizeErr = false ∧ readFail = false ∧ env.syncErr = false ∧ env.renameErr = false
         then some body else fsGet fs (finalPath path filename))
    ∧ ((WriteFileFromReader path filename tmpRand body readFail sizeErr env fs).2.1 = none
        ↔ (sizeErr = false ∧ readFail = false ∧ env.syncErr = false
           ∧ env.renameErr = false ∧ env.closeErr = false)) := by
  have hne := tmpName_ne_finalPath path filename tmpRand
  have hne' : finalPath path filename ≠ tmpName path filename tmpRand := hne.symm
  obtain ⟨sE, rE, cE⟩ := env
  cases sizeErr <;> cases readFail <;> cases sE <;> cases rE <;> cases cE <;>
    refine ⟨?_, fun q hq1 hq2 => ?_, ?_, ?_⟩ <;>
    simp_all [WriteFileFromReader, intentNewUniversal, callPersist, Persist, Zap,
      fsGet, fsSet, fsRemoveAll, fsRename]

theorem C2_zap_on_error_witness :
    fsGet (WriteFileFromReader ("/r".toList) ("f".toList) ("123".toList) [7]
        false false { renameErr := true } fsEmpty).2.2
        (tmpName ("/r".toList) ("f".toList) ("123".toList)) = none
    ∧ fsGet (WriteFileFromReader ("/r".toList) ("f".toList) ("123".toList) [7]
        false false { renameErr := true } fsEmpty).2.2 ("/other".toList)
      = fsGet fsEmpty ("/other".toList)
    ∧ fsGet (WriteFileFromReader ("/r".toList) ("f".toList) ("123".toList) [7]
        false false { renameErr := true } fsEmpty).2.2
        (finalPath ("/r".toList) ("f".toList))
      = (if False = False ∧ False = False ∧ False = False ∧ True = False
         then some [7] else fsGet fsEmpty (finalPath ("/r".toList) ("f".toList))) := by
  have h := C2_zap_on_error ("/r".toList) ("f".toList) ("123".toList) [7]
    false false { renameErr := true } fsEmpty
  exact ⟨h.1, h.2.1 ("/other".toList) (by decide) (by decide), by
    have := h.2.2.1
    simpa using this⟩

/-- C4: with the selected ceiling `E` positive, (a) a request whose
`Content-Length` parses to `L > E` is answered 413 with the body
untouched (zero bytes read, filesystem unchanged); (b) the streaming
loop `io.CopyN(w, r, 1+writeQuota)` reads at most `E + 1` bytes; (c) a
body that crosses `E` yields 413 and no file appears (the anonymous
`O_TMPFILE` handle is discarded before `Hardlink`). -/
theorem C4_quota_preflight_and_streaming (h : Handler) (rand urlPath s : List Char)
    (L : Int) (body : List Nat) (env : LinkEnv) (fs : FS) (pf : List Char × List Char)
    (hlen : 2 ≤ urlPath.length)
    (hE : 0 < (putQuota h.MaxTransactionSize h.MaxFilesize).1) :
    ((goParseInt64 s = some L
        ∧ ((putQuota h.MaxTransactionSize h.MaxFilesize).1 : Int) < L) →
      serveHTTPPut h rand urlPath (some s) body env fs = (413, 0, fs))
    ∧ (writeFileFromReaderV2 pf.1 pf.2 body 0
        (putQuota h.MaxTransactionSize h.MaxFilesize).1 env fs).1
        ≤ (putQuota h.MaxTransactionSize h.MaxFilesize).1 + 1
    ∧ (translateForFilesystem h urlPath = .ok pf →
        (putQuota h.MaxTransactionSize h.MaxFilesize).1 < body.length →
        serveHTTPPut h rand urlPath none body env fs
          = (413, (putQuota h.MaxTransactionSize h.MaxFilesize).1 + 1, fs)) := by
  set E := (putQuota h.MaxTransactionSize h.MaxFilesize).1 with hEdef
  refine ⟨?_, ?_, ?_⟩
  · rintro ⟨hparse, hgt⟩
    have hL0 : ¬ L < 0 := by
      have h0 : (0 : Int) ≤ (E : Int) := Int.natCast_nonneg E
      omega
    simp [serveHTTPPut, Nat.not_lt.mpr hlen, hparse, hL0, hE, hgt, ← hEdef]
  · rcases env with ⟨dA, cE⟩
    cases dA <;> cases cE <;>
      simp only [writeFileFromReaderV2, hE, if_true] <;>
      split <;>
      simp [Nat.min_le_left]
  · intro hok hcross
    have hmin : min (E + 1) body.length = E + 1 := Nat.min_eq_left (by omega)
    have hneg : ¬ ((E : Int) + 1 < 0) := by
      have h0 : (0 : Int) ≤ (E : Int) := Int.natCast_nonneg E
      omega
    simp only [serveHTTPPut, Nat.not_lt.mpr hlen, if_false, ← hEdef,
      writeOneHTTPBlobV2, hok, writeFileFromReaderV2, hE, if_true, hmin]
    simp [hE, Nat.lt_succ_self, hneg, hcross]

theorem C4_quota_preflight_and_streaming_witness :
    serveHTTPPut c4Handler [] ("/s/hello".toList) (some ("5".toList))
        [1, 2, 3, 4, 5] {} fsEmpty = (413, 0, fsEmpty)
    ∧ (writeFileFromReaderV2 ("/var/up".toList) ("hello".toList) [1, 2, 3, 4, 5] 0
        (putQuota c4Handler.MaxTransactionSize c4Handler.MaxFilesize).1 {} fsEmpty).1
        ≤ (putQuota c4Handler.MaxTransactionSize c4Handler.MaxFilesize).1 + 1
    ∧ serveHTTPPut c4Handler [] ("/s/hello".toList) none [1, 2, 3, 4, 5] {} fsEmpty
        = (413, (putQuota c4Handler.MaxTransactionSize c4Handler.MaxFilesize).1 + 1, fsEmpty) := by
  have h := C4_quota_preflight_and_streaming c4Handler [] ("/s/hello".toList) ("5".toList)
    5 [1, 2, 3, 4, 5] {} fsEmpty (("/var/up".toList), ("hello".toList))
    (by decide) (by decide)
  exact ⟨h.1 ⟨by decide, by decide⟩, h.2.1, h.2.2 (by decide) (by decide)⟩

/-- C5 counterexample: with `max_filesize = max_transaction_size = 5`
(and no bytes written yet) both selectors face the identical pair of
limits, yet the PUT selector attributes a breach to
`TransactionTooLarge` while the multipart selector attributes it to
`FileTooLarge`.  No single rule of the form "FileTooLarge exactly when
the binding limit is max_filesize" can match both, so the claim as
stated is false. -/
theorem C5_tie_gives_conflicting_errors :
    (putQuota 5 5).2 = QuotaErr.tx
    ∧ multipartQuota 5 5 0 = .ok (5, QuotaErr.file)
    ∧ QuotaErr.tx ≠ QuotaErr.file := by
  decide

lemma putQuota_ceil (mts mf : Nat) :
    quotaCeil (putQuota mts mf).1 = min (quotaCeil mf) (quotaCeil mts) := by
  unfold putQuota quotaCeil
  rcases Nat.eq_zero_or_pos mts with h0 | hpos
  · subst h0
    simp
  · rcases Nat.eq_zero_or_pos mf with hf0 | hfpos
    · subst hf0
      simp [hpos.ne']
    · by_cases hlt : mf < mts
      · simp only [hpos.ne', hfpos, hlt, and_self, or_true, if_true, if_false,
          hfpos.ne', ite_false, false_or]
        exact (min_eq_left (WithTop.coe_le_coe.mpr hlt.le)).symm
      · simp only [hpos.ne', hfpos, hlt, and_false, or_false, if_false,
          ite_false, false_or, hfpos.ne']
        exact (min_eq_right (WithTop.coe_le_coe.mpr (Nat.le_of_not_lt hlt))).symm

lemma putQuota_err (mts mf : Nat) :
    ((putQuota mts mf).2 = QuotaErr.file ↔ (mts = 0 ∨ quotaCeil mf < quotaCeil mts)) := by
  unfold putQuota quotaCeil
  rcases Nat.eq_zero_or_pos mts with h0 | hpos
  · subst h0
    simp
  · rcases Nat.eq_zero_or_pos mf with hf0 | hfpos
    · subst hf0
      simp [hpos.ne']
    · by_cases hlt : mf < mts
      · simp [hpos.ne', hfpos, hlt, hfpos.ne', WithTop.coe_lt_coe]
      · simp [hpos.ne', hfpos.ne', hlt, WithTop.coe_lt_coe]

lemma multipartQuota_early (mf mts soFar : Nat) (h1 : 0 < mts) (h2 : mts ≤ soFar) :
    multipartQuota mf mts soFar = .error QuotaErr.tx := by
  unfold multipartQuota
  simp [h1, h2]

lemma multipartQuota_ok (mf mts soFar q : Nat) (e : QuotaErr)
    (h : multipartQuota mf mts soFar = .ok (q, e)) :
    quotaCeil q = min (quotaCeil mf) (remainingCeil mts soFar)
    ∧ (e = QuotaErr.file ↔ quotaCeil mf ≤ remainingCeil mts soFar) := by
  unfold multipartQuota at h
  by_cases hpos : 0 < mts
  · by_cases hex : mts ≤ soFar
    · simp [hpos, hex] at h
    · have hrem : 0 < mts - soFar := Nat.sub_pos_of_lt (Nat.lt_of_not_le hex)
      by_cases hsw : mf = 0 ∨ mts - soFar < mf
      · simp only [hpos, if_true, hex, if_false, hsw, Except.ok.injEq, Prod.mk.injEq] at h
        obtain ⟨hq, he⟩ := h
        subst hq; subst he
        constructor
        · unfold quotaCeil remainingCeil
          rcases hsw with hf0 | hlt
          · subst hf0
            simp [hrem.ne', hpos.ne']
          · have hfpos : 0 < mf := lt_of_le_of_lt (Nat.zero_le _) hlt
            simp only [hrem.ne', ite_false, hfpos.ne', hpos.ne']
            exact (min_eq_right (WithTop.coe_le_coe.mpr hlt.le)).symm
        · constructor
          · intro hc; exact absurd hc (by decide)
          · intro hle
            exfalso
            unfold quotaCeil remainingCeil at hle
            rcases hsw with hf0 | hlt
            · subst hf0
              simp [hpos.ne', hrem.ne'] at hle
            · have hfpos : 0 < mf := lt_of_le_of_lt (Nat.zero_le _) hlt
              simp only [hfpos.ne', ite_false, hpos.ne'] at hle
              exact absurd (WithTop.coe_le_coe.mp hle) (Nat.not_le_of_lt hlt)
      · simp only [hpos, if_true, hex, if_false, hsw, Except.ok.injEq, Prod.mk.injEq] at h
        obtain ⟨hq, he⟩ := h
        subst hq; subst he
        push_neg at hsw
        obtain ⟨hf0, hge⟩ := hsw
        have hfpos : 0 < mf := Nat.pos_of_ne_zero hf0
        constructor
        · unfold quotaCeil remainingCeil
          simp only [hf0, ite_false, hrem.ne', hpos.ne']
          exact (min_eq_left (WithTop.coe_le_coe.mpr hge)).symm
        · simp only [true_iff]
          unfold quotaCeil remainingCeil
          simp only [hf0, ite_false, hpos.ne']
          exact WithTop.coe_le_coe.mpr hge
  · simp only [hpos, if_false, Except.ok.injEq, Prod.mk.injEq] at h
    obtain ⟨hq, he⟩ := h
    subst hq; subst he
    have h0 : mts = 0 := Nat.eq_zero_of_not_pos hpos
    constructor
    · unfold remainingCeil
      simp [h0]
    · unfold remainingCeil
      simp [h0]

/-- C5 (amended): in both selectors the effective ceiling is
`min(max_filesize_or_∞, remaining_tx)` exactly as the claim states, and
when the transaction budget is exhausted the multipart loop 413s with
`TransactionTooLarge`.  The error attribution, however, differs between
the two code paths at ties: the PUT selector raises `FileTooLarge`
exactly when `max_filesize` is *strictly* below the transaction limit
(or the latter is absent), while the multipart selector raises
`FileTooLarge` whenever `max_filesize` is *at most* the remaining
budget. -/
theorem C5_effective_ceiling_and_error_selection (mf mts soFar : Nat) :
    quotaCeil (putQuota mts mf).1 = min (quotaCeil mf) (quotaCeil mts)
    ∧ ((putQuota mts mf).2 = QuotaErr.file ↔ (mts = 0 ∨ quotaCeil mf < quotaCeil mts))
    ∧ (0 < mts → mts ≤ soFar → multipartQuota mf mts soFar = .error QuotaErr.tx)
    ∧ (∀ q e, multipartQuota mf mts soFar = .ok (q, e) →
        quotaCeil q = min (quotaCeil mf) (remainingCeil mts soFar)
        ∧ (e = QuotaErr.file ↔ quotaCeil mf ≤ remainingCeil mts soFar)) :=
  ⟨putQuota_ceil mts mf, putQuota_err mts mf,
   fun h1 h2 => multipartQuota_early mf mts soFar h1 h2,
   fun q e h => multipartQuota_ok mf mts soFar q e h⟩

theorem C5_effective_ceiling_and_error_selection_witness :
    quotaCeil (putQuota 5 3).1 = min (quotaCeil 3) (quotaCeil 5)
    ∧ ((putQuota 5 3).2 = QuotaErr.file ↔ (5 = 0 ∨ quotaCeil 3 < quotaCeil 5))
    ∧ (0 < 5 → 5 ≤ 0 → multipartQuota 3 5 0 = .error QuotaErr.tx)
    ∧ (∀ q e, multipartQuota 3 5 0 = .ok (q, e) →
        quotaCeil q = min (quotaCeil 3) (remainingCeil 5 0)
        ∧ (e = QuotaErr.file ↔ quotaCeil 3 ≤ remainingCeil 5 0)) :=
  C5_effective_ceiling_and_error_selection 3 5 0

/-- C10: when both limits are nonzero, the PUT selector picks the
file-size limiter exactly when it is strictly smaller; in particular a
tie selects the transaction limiter, so a breach of the common bound is
reported as `TransactionTooLarge`. -/
theorem C10_put_tie_selects_transaction (mf mts : Nat) (hf : 0 < mf) (ht : 0 < mts) :
    ((putQuota mts mf).2 = QuotaErr.file ↔ mf < mts)
    ∧ (mf = mts → putQuota mts mf = (mts, QuotaErr.tx)) := by
  unfold putQuota
  constructor
  · by_cases hlt : mf < mts
    · simp [ht.ne', hf, hlt]
    · simp [ht.ne', hlt]
  · intro heq
    subst heq
    simp [hf.ne']

theorem C10_put_tie_selects_transaction_witness :
    0 < 5 ∧ 0 < 5
    ∧ (((putQuota 5 5).2 = QuotaErr.file ↔ 5 < 5)
       ∧ (5 = 5 → putQuota 5 5 = (5, QuotaErr.tx))) :=
  ⟨by decide, by decide, C10_put_tie_selects_transaction 5 5 (by decide) (by decide)⟩

/-- C6 counterexample: `now = 100`, tolerance 900, and a request whose
`Timestamp` header reads 2^64 − 1.  The true distance
|now − t| = 2^64 − 101 far exceeds the tolerance, but `CheckFormal`'s
wrapped 64-bit subtraction yields 101, freshness passes, and with a
matching signature the authentication succeeds (200) where the claim
demands 403. -/
theorem C6_wraparound_defeats_freshness :
    Authenticate (fun _ _ => [1]) [(("k1".toList), [9])] c6Header c6Headers
        (fun _ => none) 100 900 = 200
    ∧ 900 < 18446744073709551615 - 100
    ∧ CheckFormal c6Header c6Headers (fun _ => none) 100 900 = none := by
  decide

lemma abs64_sub64_add (a d : Nat) (hd : d < 2 ^ 63) :
    abs64 (sub64 (a + d) a) = d := by
  simp only [abs64, sub64]
  split <;> omega

lemma abs64_sub64_sub (a d : Nat) (hd : d < 2 ^ 63) :
    abs64 (sub64 a (a + d)) = d := by
  simp only [abs64, sub64]
  split <;> omega

/-- C6 (amended): whenever the timestamp `t` — taken from the
`Timestamp` header as decimal Unix seconds, or from the `Date` header
through the HTTP date parse — lies at a true distance `d = |now − t|`
that exceeds the tolerance *and* stays below 2^63, authentication
answers 403 (`errRequestTooOld`), for every MAC function, secret table
and signature — the freshness check runs before the signature is ever
consulted.  (The restriction to `d < 2^63` is forced by the code:
`CheckFormal` compares `abs64(now − t)` in wrapping 64-bit arithmetic,
so distances of 2^63 and beyond alias and can pass, as the
counterexample shows.) -/
theorem C6_stale_timestamp_forbidden (mac : List Nat → List (List Char) → List Nat)
    (secrets : List (List Char × List Nat)) (a : AuthorizationHeader)
    (headers : List (List Char × List Char)) (parseDate : List Char → Option Nat)
    (now t tol d : Nat) (k : List Char) (rest : List (List Char))
    (hsig : a.Signature ≠ [])
    (halg : a.Algorithm = "hmac-sha256".toList)
    (hh : a.HeadersToSign = k :: ("token".toList) :: rest)
    (hk : k = ("timestamp".toList) ∨ k = ("date".toList))
    (hv : headersGet headers k ≠ [])
    (hparse : (if k = ("timestamp".toList)
               then some (goParseUint64Lenient (headersGet headers k))
               else parseDate (headersGet headers k)) = some t)
    (hdir : now = t + d ∨ t = now + d)
    (htol : tol < d) (hd : d < 2 ^ 63) :
    Authenticate mac secrets a headers parseDate now tol = 403 := by
  have habs : abs64 (sub64 now t) = d := by
    rcases hdir with h | h
    · rw [h]; exact abs64_sub64_add t d hd
    · rw [h]; exact abs64_sub64_sub now d hd
  have hlen0 : ¬ (a.Signature.length = 0) := by
    simpa [List.length_eq_zero] using hsig
  have hnl : ¬ (a.HeadersToSign.length < 2) := by
    simp [hh]
  have hcf : CheckFormal a headers parseDate now tol = some AuthError.forbidden := by
    have hv' := hv
    have hp' := hparse
    rcases hk with hk | hk
    · subst hk
      simp at hv' hp'
      simp [CheckFormal, hh, CheckFormal.walk, hv', hp', habs, htol]
    · subst hk
      have hne1 : ¬ (("date".toList : List Char) = ("timestamp".toList)) := by decide
      simp [hne1] at hv' hp'
      simp [CheckFormal, hh, CheckFormal.walk, hne1, hv', hp', habs, htol]
  rcases hk with hk | hk <;> subst hk <;>
    simp [Authenticate, hlen0, hnl, halg, hh, hcf, AuthError.suggestedResponseCode]

theorem C6_stale_timestamp_forbidden_witness :
    Authenticate (fun _ _ => [1]) [(("k1".toList), [9])] c6Header c6FreshHeaders
        (fun _ => none) 1000 900 = 403
    ∧ Authenticate (fun _ _ => [1]) [(("k1".toList), [9])] c6DateHeader c6DateHeaders
        (fun _ => some 50) 1000 900 = 403 :=
  ⟨C6_stale_timestamp_forbidden (fun _ _ => [1]) [(("k1".toList), [9])] c6Header
    c6FreshHeaders (fun _ => none) 1000 50 900 950 ("timestamp".toList) []
    (by decide) (by decide) (by decide) (Or.inl (by decide)) (by decide) (by decide)
    (Or.inl (by decide)) (by decide) (by decide),
   C6_stale_timestamp_forbidden (fun _ _ => [1]) [(("k1".toList), [9])] c6DateHeader
    c6DateHeaders (fun _ => some 50) 1000 50 900 950 ("date".toList) []
    (by decide) (by decide) (by decide) (Or.inr (by decide)) (by decide) (by decide)
    (Or.inl (by decide)) (by decide) (by decide)⟩

/-- C7: once the structural checks and `CheckFormal` pass, the outcome
is Forbidden (403) exactly when the keyId is unknown in `hmac_secrets`
or the MAC over the concatenated values of the headers to sign differs
from the supplied signature — the comparison in the unknown-key case
being made against the MAC computed with the map's zero-value (empty)
secret, mirroring that `SatisfiedBy` runs before `secretFound` is
inspected; every such run ends in 403 or 200. -/
theorem C7_forbidden_on_unknown_key_or_mismatch
    (mac : List Nat → List (List Char) → List Nat)
    (secrets : List (List Char × List Nat)) (a : AuthorizationHeader)
    (headers : List (List Char × List Char)) (parseDate : List Char → Option Nat)
    (now tol : Nat)
    (hsig : a.Signature ≠ [])
    (halg : a.Algorithm = "hmac-sha256".toList)
    (hh0 : a.HeadersToSign.head? = some ("date".toList)
           ∨ a.HeadersToSign.head? = some ("timestamp".toList))
    (hh1 : a.HeadersToSign.get? 1 = some ("token".toList))
    (hlen2 : 2 ≤ a.HeadersToSign.length)
    (hcf : CheckFormal a headers parseDate now tol = none) :
    (Authenticate mac secrets a headers parseDate now tol = 403
      ↔ (secrets.lookup a.KeyID = none
         ∨ SatisfiedBy mac a headers ((secrets.lookup a.KeyID).getD []) = false))
    ∧ (Authenticate mac secrets a headers parseDate now tol = 403
       ∨ Authenticate mac secrets a headers parseDate now tol = 200) := by
  have hlen0 : ¬ (a.Signature.length = 0) := by
    simpa [List.length_eq_zero] using hsig
  have hnl : ¬ (a.HeadersToSign.length < 2) := Nat.not_lt.mpr hlen2
  simp only [Authenticate, hlen0, hnl, halg, hh0, hh1, hcf, false_or, or_false,
    ne_eq, not_true_eq_false, not_false_eq_true, if_false, ite_false, and_true]
  cases hfound : secrets.lookup a.KeyID <;>
    cases hsat : SatisfiedBy mac a headers ((secrets.lookup a.KeyID).getD []) <;>
    simp_all [Option.isNone]

theorem C7_forbidden_on_unknown_key_or_mismatch_witness :
    (Authenticate (fun _ _ => [2]) [(("k2".toList), [9])] c6Header c6FreshHeaders
        (fun _ => none) 50 0 = 403
      ↔ (([(("k2".toList), [9])].lookup c6Header.KeyID) = none
         ∨ SatisfiedBy (fun _ _ => [2]) c6Header c6FreshHeaders
             (([(("k2".toList), [9])].lookup c6Header.KeyID).getD []) = false))
    ∧ (Authenticate (fun _ _ => [2]) [(("k2".toList), [9])] c6Header c6FreshHeaders
        (fun _ => none) 50 0 = 403
       ∨ Authenticate (fun _ _ => [2]) [(("k2".toList), [9])] c6Header c6FreshHeaders
        (fun _ => none) 50 0 = 200) :=
  C7_forbidden_on_unknown_key_or_mismatch (fun _ _ => [2]) [(("k2".toList), [9])]
    c6Header c6FreshHeaders (fun _ => none) 50 0
    (by decide) (by decide) (Or.inr (by decide)) (by decide) (by decide) (by decide)

/-- C8 counterexample: the bucket-backed `writeOneHTTPBlob` answers a
5-byte body advertised as 20 bytes with 422 and discards the blob
(nothing appears under the key `hello`), where the claim demands 202
with the received bytes persisted. -/
theorem C8_bucket_shortfall_gives_422 :
    (writeOneHTTPBlobV5 c4Handler ("abcdefghjkmnpqr".toList) [] ("/s/hello".toList)
        20 [1, 2, 3, 4, 5] false fsEmpty).2.1 = 422
    ∧ fsGet (writeOneHTTPBlobV5 c4Handler ("abcdefghjkmnpqr".toList) [] ("/s/hello".toList)
        20 [1, 2, 3, 4, 5] false fsEmpty).2.2 ("hello".toList) = none
    ∧ (422 : Nat) ≠ 202 := by
  decide

/-- C8 (amended): the two handler generations disagree on a body
shorter than its advertised length.  The filesystem-backed
`writeOneHTTPBlob` answers 202 and persists the received bytes under
the final name; the bucket-backed revision cancels the write, leaving
the bucket untouched, and answers 422.  A zero-byte upload is answered
201 by both. -/
theorem C8_short_body_202_vs_422 (h : Handler) (rand fileName canary15 path : List Char)
    (L : Int) (body : List Nat) (fs bucket : FS)
    (pf : List Char × List Char) (key : List Char)
    (hsuffix : h.RandomizedSuffixLength = 0)
    (hok : translateForFilesystem h fileName = .ok pf)
    (hkey : translateToKey h canary15 path = .ok key)
    (hshort : (body.length : Int) < L) :
    (writeOneHTTPBlobV2 h rand fileName L 0 body {} fs).2.1 = 202
    ∧ fsGet (writeOneHTTPBlobV2 h rand fileName L 0 body {} fs).2.2.2
        (goJoin2 pf.1 pf.2) = some body
    ∧ (writeOneHTTPBlobV2 h rand fileName 0 0 [] {} fs).2.1 = 201
    ∧ (writeOneHTTPBlobV5 h canary15 rand path 0 [] false bucket).2.1 = 201
    ∧ (writeOneHTTPBlobV5 h canary15 rand path L body false bucket).2.1 = 422
    ∧ (writeOneHTTPBlobV5 h canary15 rand path L body false bucket).2.2 = bucket := by
  have hL0 : 0 < L := lt_of_le_of_lt (Int.natCast_nonneg _) hshort
  have hne : (body.length : Int) ≠ L := ne_of_lt hshort
  refine ⟨?_, ?_, ?_, ?_, ?_, ?_⟩
  · simp [writeOneHTTPBlobV2, hok, writeFileFromReaderV2, randomizedName, hsuffix, hshort]
  · simp [writeOneHTTPBlobV2, hok, writeFileFromReaderV2, randomizedName, hsuffix, hshort,
      fsGet, fsSet]
  · simp [writeOneHTTPBlobV2, hok, writeFileFromReaderV2, randomizedName, hsuffix]
  · simp [writeOneHTTPBlobV5, hkey]
  · simp [writeOneHTTPBlobV5, hkey, hL0, hne]
  · simp [writeOneHTTPBlobV5, hkey, hL0, hne]

theorem C8_short_body_202_vs_422_witness :
    (writeOneHTTPBlobV2 c4Handler [] ("/s/hello".toList) 20 0 [1, 2, 3, 4, 5] {} fsEmpty).2.1
        = 202
    ∧ fsGet (writeOneHTTPBlobV2 c4Handler [] ("/s/hello".toList) 20 0
        [1, 2, 3, 4, 5] {} fsEmpty).2.2.2
        (goJoin2 ("/var/up".toList) ("hello".toList)) = some [1, 2, 3, 4, 5]
    ∧ (writeOneHTTPBlobV2 c4Handler [] ("/s/hello".toList) 0 0 [] {} fsEmpty).2.1 = 201
    ∧ (writeOneHTTPBlobV5 c4Handler ("abcdefghjkmnpqr".toList) [] ("/s/hello".toList)
        0 [] false fsEmpty).2.1 = 201
    ∧ (writeOneHTTPBlobV5 c4Handler ("abcdefghjkmnpqr".toList) [] ("/s/hello".toList)
        20 [1, 2, 3, 4, 5] false fsEmpty).2.1 = 422
    ∧ (writeOneHTTPBlobV5 c4Handler ("abcdefghjkmnpqr".toList) [] ("/s/hello".toList)
        20 [1, 2, 3, 4, 5] false fsEmpty).2.2 = fsEmpty :=
  C8_short_body_202_vs_422 c4Handler [] ("/s/hello".toList) ("abcdefghjkmnpqr".toList)
    ("/s/hello".toList) 20 [1, 2, 3, 4, 5] fsEmpty fsEmpty
    (("/var/up".toList), ("hello".toList)) ("hello".toList)
    (by decide) (by decide) (by decide) (by decide)

/-- C9 counterexample: a MOVE whose source and destination both
translate to the scope's target directory itself (`MOVE /s` with
`Destination: /s`): the source-equals-destination check runs first, so
the handler answers 409 where the claim's rule order — "refuse if
either equals write_to (403)" before "if source == destination, 409" —
demands 403. -/
theorem C9_root_onto_itself_gives_409 :
    moveOneFile c4Handler (fun _ _ => RenameResult.ok) ("/s".toList) ("/s".toList) = 409
    ∧ (translateForFilesystem c4Handler ("/s".toList)).map (fun pf => goJoin2 pf.1 pf.2)
        = .ok c4Handler.WriteToPath
    ∧ (409 : Nat) ≠ 403 := by
  decide

/-- C9 (amended): for a MOVE whose endpoints both translate, the
source-equals-destination check precedes the `write_to` guard: equal
joined paths answer 409 even when both equal `write_to`; with distinct
paths, either endpoint equal to `write_to` answers 403; otherwise the
rename runs, its success answered 201 and "directory not empty"
mapped to 409 (anything else 500). -/
theorem C9_move_decision (h : Handler) (rename : List Char → List Char → RenameResult)
    (fromFilename toFilename : List Char) (fp tp : List Char × List Char)
    (hf : translateForFilesystem h fromFilename = .ok fp)
    (ht : translateForFilesystem h toFilename = .ok tp) :
    (goJoin2 fp.1 fp.2 = goJoin2 tp.1 tp.2 →
      moveOneFile h rename fromFilename toFilename = 409)
    ∧ (goJoin2 fp.1 fp.2 ≠ goJoin2 tp.1 tp.2 →
       (goJoin2 fp.1 fp.2 = h.WriteToPath ∨ goJoin2 tp.1 tp.2 = h.WriteToPath) →
      moveOneFile h rename fromFilename toFilename = 403)
    ∧ (goJoin2 fp.1 fp.2 ≠ goJoin2 tp.1 tp.2 →
       goJoin2 fp.1 fp.2 ≠ h.WriteToPath → goJoin2 tp.1 tp.2 ≠ h.WriteToPath →
      moveOneFile h rename fromFilename toFilename
        = (match rename (goJoin2 fp.1 fp.2) (goJoin2 tp.1 tp.2) with
           | .ok => 201
           | .dirNotEmpty => 409
           | .otherErr => 500)) := by
  refine ⟨fun heq => ?_, fun hne hroot => ?_, fun hne hr1 hr2 => ?_⟩
  · simp [moveOneFile, hf, ht, heq]
  · simp [moveOneFile, hf, ht, hne, hroot]
  · simp [moveOneFile, hf, ht, hne, hr1, hr2]

theorem C9_move_decision_witness :
    moveOneFile c4Handler (fun _ _ => RenameResult.ok) ("/s/a".toList) ("/s/b".toList)
      = (match (fun (_ _ : List Char) => RenameResult.ok)
            (goJoin2 ("/var/up".toList) ("a".toList)) (goJoin2 ("/var/up".toList) ("b".toList)) with
         | .ok => 201
         | .dirNotEmpty => 409
         | .otherErr => 500) :=
  (C9_move_decision c4Handler (fun _ _ => RenameResult.ok) ("/s/a".toList) ("/s/b".toList)
    (("/var/up".toList), ("a".toList)) (("/var/up".toList), ("b".toList))
    (by decide) (by decide)).2.2 (by decide) (by decide) (by decide)

end HttpUpload
